import Mathlib

/-!
# Verification of the keyring credential-storage core

A shallow embedding of the keyring library (files `src/lib.rs` and
`src/macos.rs`) in Lean 4, together with proofs of the spec's testable
properties.

Rust strings are modelled as lists of Unicode scalar values (`RStr`),
byte sequences as lists of naturals below 256, and the native macOS
keychain (an external collaborator of the library) as an explicit
association-list state.  The files `credential.rs` and `error.rs`,
which the library declares (`pub mod credential; pub mod error;`) but
whose bodies are not part of the sources, are modelled from the spec
where indicated.
-/

namespace Keyring

/-- A Rust string: a sequence of Unicode scalar values. -/
abbrev RStr := List Nat

/-- A Unicode scalar value: a code point outside the surrogate range. -/
def IsScalar (c : Nat) : Prop := c < 0xD800 ∨ (0xE000 ≤ c ∧ c < 0x110000)

instance (c : Nat) : Decidable (IsScalar c) := by

  unfold IsScalar; infer_instance

/-- Modelled from the spec: `credential.rs` is declared by `lib.rs` but
its body is missing from the sources.  The spec's `Platform` is the
enumeration of supported runtime platforms. -/
inductive Platform where
  | Linux
  | Windows
  | MacOs
deriving DecidableEq, Repr

/-- Modelled from the spec: the macOS keychain domain, one of the four
keychain scopes. -/
inductive MacKeychainDomain where
  | User
  | System
  | Common
  | Dynamic
deriving DecidableEq, Repr

/-- Modelled from the spec: the Mac credential variant's fields, the
addressing data the macOS native API needs (`domain`, `service`,
`account`). -/
structure MacCredential where
  domain : MacKeychainDomain
  service : RStr
  account : RStr
deriving DecidableEq, Repr

/-- Modelled from the spec: the Windows credential variant carries a
single `target_name` string used verbatim as the credential's name. -/
structure WinCredential where
  target_name : RStr
deriving DecidableEq, Repr

/-- Modelled from the spec: the Linux credential variant carries a
Secret Service collection identifier plus `service`/`account`
attributes. -/
structure LinuxCredential where
  collection : RStr
  service : RStr
  account : RStr
deriving DecidableEq, Repr

/-- Modelled from the spec: `PlatformCredential` is a tagged union with
one variant per platform. -/
inductive PlatformCredential where
  | Lin (c : LinuxCredential)
  | Win (c : WinCredential)
  | Mac (c : MacCredential)
deriving DecidableEq, Repr

/-- Modelled from the spec: the native error attached to
`NoStorageAccess` and `PlatformFailure`; on macOS it is identified by
its signed error code (`err.code()`). -/
abbrev NativeError := Int

/-- Modelled from the spec: `error.rs` is declared by `lib.rs` but its
body is missing from the sources.  The spec's closed error taxonomy. -/
inductive Error where
  | NoEntry
  | WrongCredentialPlatform
  | BadEncoding (bytes : List Nat)
  | NoStorageAccess (err : NativeError)
  | PlatformFailure (err : NativeError)
deriving DecidableEq, Repr

/-- Modelled from the spec: `matches_platform` is true iff the
credential's variant tag corresponds to the given platform. -/
def PlatformCredential.matches_platform : PlatformCredential → Platform → Bool
  | .Lin _, .Linux => true
  | .Win _, .Windows => true
  | .Mac _, .MacOs => true
  | _, _ => false

/-- Modelled from the spec: the explicit, total mapping from a Mac
target string to a keychain domain, falling back to `User` on
unrecognized text.  Strings are spelled as scalar-value lists
("user", "system", "common", "dynamic"). -/
def mac_domain_from_target (t : RStr) : MacKeychainDomain :=
  if t = [117, 115, 101, 114] then .User
  else if t = [115, 121, 115, 116, 101, 109] then .System
  else if t = [99, 111, 109, 109, 111, 110] then .Common
  else if t = [100, 121, 110, 97, 109, 105, 99] then .Dynamic
  else .User

/-- Modelled from the spec: the Linux well-known default collection
("default" as a scalar-value list). -/
def linux_default_collection : RStr := [100, 101, 102, 97, 117, 108, 116]

/-- Modelled from the spec: `default_target` deterministically derives
the platform-appropriate credential from a generic
(target, service, username) triple.  Mac: domain from the optional
target (default `User`); Windows: the target verbatim, or
`service.username` with the fixed `.` (code 46) separator; Linux: the
target as collection name, or the well-known default collection. -/
def default_target (p : Platform) (target : Option RStr) (service username : RStr) :
    PlatformCredential :=
  match p with
  | .MacOs =>
      .Mac { domain := match target with
               | none => .User
               | some t => mac_domain_from_target t
             service := service
             account := username }
  | .Windows =>
      .Win { target_name := match target with
               | none => service ++ [46] ++ username
               | some t => t }
  | .Linux =>
      .Lin { collection := match target with
               | none => linux_default_collection
               | some t => t
             service := service
             account := username }

/-! ## UTF-8 encoding and decoding

`macos.rs` stores `password.as_bytes()` (the UTF-8 encoding of the
password) and decodes retrieved bytes with `String::from_utf8`.  Both
directions are embedded here at the byte level, following the standard
UTF-8 well-formedness rules that `String::from_utf8` enforces
(continuation ranges per lead byte, no overlongs, no surrogates, no
code points above `0x10FFFF`). -/

/-- The UTF-8 encoding of one Unicode scalar value, as `str::as_bytes`
produces it. -/
def utf8EncodeChar (c : Nat) : List Nat :=
  if c < 0x80 then [c]
  else if c < 0x800 then [0xC0 + c / 64, 0x80 + c % 64]
  else if c < 0x10000 then
    [0xE0 + c / 4096, 0x80 + c / 64 % 64, 0x80 + c % 64]
  else
    [0xF0 + c / 0x40000, 0x80 + c / 4096 % 64, 0x80 + c / 64 % 64, 0x80 + c % 64]

/-- The UTF-8 encoding of a string (`str::as_bytes`). -/
def utf8Encode : RStr → List Nat
  | [] => []
  | c :: cs => utf8EncodeChar c ++ utf8Encode cs

/-- One step of strict UTF-8 decoding: the first scalar value encoded
at the head of the byte sequence and the remaining bytes, or `none`
when the head is malformed (a stray continuation byte, a truncated
sequence, an overlong encoding, a surrogate, or a value above
`0x10FFFF`) — exactly the shapes `String::from_utf8` rejects. -/
def utf8DecodeStep : List Nat → Option (Nat × List Nat)
  | [] => none
  | b :: bs =>
    if b < 0x80 then some (b, bs)
    else if b < 0xC2 then none
    else if b < 0xE0 then
      match bs with
      | b1 :: bs2 =>
        if 0x80 ≤ b1 ∧ b1 < 0xC0 then
          some ((b - 0xC0) * 64 + (b1 - 0x80), bs2)
        else none
      | [] => none
    else if b < 0xF0 then
      match bs with
      | b1 :: b2 :: bs3 =>
        if (if b = 0xE0 then 0xA0 ≤ b1 ∧ b1 < 0xC0
            else if b = 0xED then 0x80 ≤ b1 ∧ b1 < 0xA0
            else 0x80 ≤ b1 ∧ b1 < 0xC0) ∧ 0x80 ≤ b2 ∧ b2 < 0xC0 then
          some ((b - 0xE0) * 4096 + (b1 - 0x80) * 64 + (b2 - 0x80), bs3)
        else none
      | _ => none
    else if b < 0xF5 then
      match bs with
      | b1 :: b2 :: b3 :: bs4 =>
        if (if b = 0xF0 then 0x90 ≤ b1 ∧ b1 < 0xC0
            else if b = 0xF4 then 0x80 ≤ b1 ∧ b1 < 0x90
            else 0x80 ≤ b1 ∧ b1 < 0xC0) ∧
            (0x80 ≤ b2 ∧ b2 < 0xC0) ∧ (0x80 ≤ b3 ∧ b3 < 0xC0) then
          some ((b - 0xF0) * 0x40000 + (b1 - 0x80) * 4096 +
                (b2 - 0x80) * 64 + (b3 - 0x80), bs4)
        else none
      | _ => none
    else none

/-- Fuel-driven decoding loop; the fuel only serves termination and is
irrelevant as long as it is at least the number of bytes. -/
def utf8DecodeAux : Nat → List Nat → Option RStr
  | _, [] => some []
  | 0, _ :: _ => none
  | fuel + 1, b :: bs =>
    match utf8DecodeStep (b :: bs) with
    | some (c, rest) => (utf8DecodeAux fuel rest).map (c :: ·)
    | none => none

/-- Strict UTF-8 decoding of a byte sequence, as `String::from_utf8`
validates it: `none` exactly on malformed input, otherwise the decoded
scalar values. -/
def utf8Decode (l : List Nat) : Option RStr := utf8DecodeAux l.length l

/-! ## The macOS backend (`src/macos.rs`)

The `security_framework` calls are external collaborators of the
library (spec §1, §6).  They are modelled by an explicit keychain
state: a finite map from (domain, service, account) to the stored
secret bytes, with `find` reporting the native code `-25300`
(errSecItemNotFound) when no item exists. -/

/-- The key under which the macOS native store files a generic
password: the keychain domain it lives in plus the (service, account)
pair. -/
abbrev StoreKey := MacKeychainDomain × RStr × RStr

/-- The explicit state of the native macOS keychain store. -/
abbrev Store := List (StoreKey × List Nat)

/-- Look up the secret bytes stored under a key, if any. -/
def storeLookup : Store → StoreKey → Option (List Nat)
  | [], _ => none
  | e :: rest, k => if e.1 = k then some e.2 else storeLookup rest k

/-- Remove every item stored under a key. -/
def storeErase (s : Store) (k : StoreKey) : Store :=
  s.filter (fun e => decide (e.1 ≠ k))

/-- Store secret bytes under a key, overwriting any existing value. -/
def storeInsert (s : Store) (k : StoreKey) (v : List Nat) : Store :=
  (k, v) :: storeErase s k

/-- The native error code errSecItemNotFound. -/
def errSecItemNotFound : NativeError := -25300

/-- Modelled from the spec: `SecKeychain::default_for_domain`, the
external native call opening the default keychain of a domain; in its
nominal behavior (store reachable and unlocked, spec §5/§6) it
succeeds, and the keychain is identified by its domain. -/
def default_for_domain (d : MacKeychainDomain) :
    Except NativeError MacKeychainDomain :=
  .ok d

/-- Modelled from the spec: `find_generic_password`, the external
native lookup by (keychain, service, account); absence is reported as
the native code errSecItemNotFound (-25300). -/
def find_generic_password (store : Store) (keychain : MacKeychainDomain)
    (service account : RStr) : Except NativeError (List Nat) :=
  match storeLookup store (keychain, service, account) with
  | some bytes => .ok bytes
  | none => .error errSecItemNotFound

/-- Modelled from the spec: `set_generic_password`, the external
native write that stores the bytes, overwriting any existing value. -/
def set_generic_password (store : Store) (keychain : MacKeychainDomain)
    (service account : RStr) (bytes : List Nat) :
    Except NativeError Store :=
  .ok (storeInsert store (keychain, service, account) bytes)

/-- From `macos.rs`, `decode_error`: the total mapping from native macOS
error codes to the shared taxonomy, with `PlatformFailure` as the
default arm. -/
def decode_error (err : NativeError) : Error :=
  if err = -25291 then .NoStorageAccess err -- errSecNotAvailable
  else if err = -25292 then .NoStorageAccess err -- errSecReadOnly
  else if err = -25294 then .NoStorageAccess err -- errSecNoSuchKeychain
  else if err = -25295 then .NoStorageAccess err -- errSecInvalidKeychain
  else if err = -25300 then .NoEntry -- errSecItemNotFound
  else .PlatformFailure err

/-- From `macos.rs`, `decode_password`: decode stored bytes as UTF-8,
reporting the raw bytes in `BadEncoding` on failure
(`String::from_utf8(bytes.clone()).map_err(|_| BadEncoding(bytes))`). -/
def decode_password (bytes : List Nat) : Except Error RStr :=
  match utf8Decode bytes with
  | some s => .ok s
  | none => .error (.BadEncoding bytes)

/-- From `macos.rs`, `get_keychain`: open the default keychain for the
credential's domain, mapping native errors through `decode_error`. -/
def get_keychain (map : MacCredential) : Except Error MacKeychainDomain :=
  match default_for_domain map.domain with
  | .ok keychain => .ok keychain
  | .error err => .error (decode_error err)

/-- From `macos.rs`, `platform`: the backend compiled into this source tree
is the macOS one. -/
def macos_platform : Platform := .MacOs

/-- From `macos.rs`, `set_password`: on a Mac credential, store the UTF-8
bytes of the password in the credential's keychain; on any other
variant, fail `WrongCredentialPlatform` without touching the store. -/
def set_password (map : PlatformCredential) (password : RStr) (store : Store) :
    Except Error Unit × Store :=
  match map with
  | .Mac m =>
    match get_keychain m with
    | .error e => (.error e, store)
    | .ok keychain =>
      match set_generic_password store keychain m.service m.account
          (utf8Encode password) with
      | .ok store2 => (.ok (), store2)
      | .error err => (.error (decode_error err), store)
  | _ => (.error .WrongCredentialPlatform, store)

/-- From `macos.rs`, `get_password`: on a Mac credential, find the stored
bytes and decode them, returning the (unmutated) credential alongside
to model the `&mut` parameter; on any other variant, fail
`WrongCredentialPlatform`.  The store is read-only here. -/
def get_password (map : PlatformCredential) (store : Store) :
    Except Error (RStr × PlatformCredential) :=
  match map with
  | .Mac m =>
    match get_keychain m with
    | .error e => .error e
    | .ok keychain =>
      match find_generic_password store keychain m.service m.account with
      | .error err => .error (decode_error err)
      | .ok password_bytes =>
        match decode_password password_bytes with
        | .ok s => .ok (s, .Mac m)
        | .error e => .error e
  | _ => .error .WrongCredentialPlatform

/-- From `macos.rs`, `delete_password`: on a Mac credential, find the item
(failing `NoEntry` via `decode_error` when absent) and delete it; on
any other variant, fail `WrongCredentialPlatform` without touching the
store. -/
def delete_password (map : PlatformCredential) (store : Store) :
    Except Error Unit × Store :=
  match map with
  | .Mac m =>
    match get_keychain m with
    | .error e => (.error e, store)
    | .ok keychain =>
      match find_generic_password store keychain m.service m.account with
      | .error err => (.error (decode_error err), store)
      | .ok _ =>
        (.ok (), storeErase store (keychain, m.service, m.account))
  | _ => (.error .WrongCredentialPlatform, store)

/-! ## The Entry facade (`src/lib.rs`)

Each operation takes `&self`; the embedding returns, besides the
result (and the store where the operation may write), the entry's
target after the call, making the frame condition explicit. -/

/-- From `lib.rs`, `platform()`: forwards to the compiled-in backend's
`platform()`. -/
def platform : Platform := macos_platform

/-- From `lib.rs`, `Entry`: owns exactly one platform credential, the
target. -/
structure Entry where
  target : PlatformCredential
deriving DecidableEq, Repr

/-- From `lib.rs`, `Entry::new`: derive the default target for the current
platform from (service, username). -/
def Entry.new (service username : RStr) : Entry :=
  { target := default_target platform none service username }

/-- From `lib.rs`, `Entry::new_with_target`: derive the target for the
current platform from (target, service, username). -/
def Entry.new_with_target (target service username : RStr) : Entry :=
  { target := default_target platform (some target) service username }

/-- From `lib.rs`, `Entry::new_with_credential`: accept a caller-supplied
credential iff its tag matches the current platform, cloning it into
the entry. -/
def Entry.new_with_credential (target : PlatformCredential) :
    Except Error Entry :=
  if target.matches_platform platform then
    .ok { target := target }
  else
    .error .WrongCredentialPlatform

/-- From `lib.rs`, `Entry::set_password`: forward to the backend with the
stored target (`&self`: the returned credential is the entry's target
after the call). -/
def Entry.set_password (e : Entry) (password : RStr) (store : Store) :
    Except Error Unit × PlatformCredential × Store :=
  match Keyring.set_password e.target password store with
  | (r, store2) => (r, e.target, store2)

/-- From `lib.rs`, `Entry::get_password`: forward to the backend on a clone
of the target and discard the (possibly enriched) returned address,
keeping only the secret (`&self`: the middle component is the entry's
target after the call). -/
def Entry.get_password (e : Entry) (store : Store) :
    Except Error RStr × PlatformCredential :=
  match Keyring.get_password e.target store with
  | .ok (password, _) => (.ok password, e.target)
  | .error err => (.error err, e.target)

/-- From `lib.rs`, `Entry::get_password_and_credential`: forward to the
backend on a clone of the target and also return the enriched address
(`&self`: the middle component is the entry's target after the
call). -/
def Entry.get_password_and_credential (e : Entry) (store : Store) :
    Except Error (RStr × PlatformCredential) × PlatformCredential :=
  match Keyring.get_password e.target store with
  | .ok (password, map) => (.ok (password, map), e.target)
  | .error err => (.error err, e.target)

/-- From `lib.rs`, `Entry::delete_password`: forward to the backend with the
stored target (`&self`: the returned credential is the entry's target
after the call). -/
def Entry.delete_password (e : Entry) (store : Store) :
    Except Error Unit × PlatformCredential × Store :=
  match Keyring.delete_password e.target store with
  | (r, store2) => (r, e.target, store2)

/-! ## Round-trip of the UTF-8 codec -/

/-- A successful decode step consumes at least one byte. -/
theorem utf8DecodeStep_shrinks (l : List Nat) (c : Nat) (rest : List Nat)
    (h : utf8DecodeStep l = some (c, rest)) : rest.length < l.length := by
  rcases l with _ | ⟨b, _ | ⟨b1, _ | ⟨b2, _ | ⟨b3, bs⟩⟩⟩⟩ <;>
    simp only [utf8DecodeStep] at h <;>
    (try split_ifs at h) <;> simp_all <;> omega

/-- The decoding loop is independent of the fuel once the fuel covers
the length of the input. -/
theorem utf8DecodeAux_fuel (f1 : Nat) : ∀ (f2 : Nat) (l : List Nat),
    l.length ≤ f1 → l.length ≤ f2 → utf8DecodeAux f1 l = utf8DecodeAux f2 l := by
  induction f1 with
  | zero =>
    intro f2 l h1 _
    rcases l with _ | ⟨b, bs⟩
    · cases f2 <;> rfl
    · simp at h1
  | succ f ih =>
    intro f2 l h1 h2
    rcases l with _ | ⟨b, bs⟩
    · cases f2 <;> rfl
    · rcases f2 with _ | f2
      · simp at h2
      · rcases hs : utf8DecodeStep (b :: bs) with _ | ⟨c, rest⟩
        · simp only [utf8DecodeAux, hs]
        · have hlen := utf8DecodeStep_shrinks _ _ _ hs
          simp only [List.length_cons] at h1 h2 hlen
          simp only [utf8DecodeAux, hs]
          rw [ih f2 rest (by omega) (by omega)]

/-- Unfolding the decoder through a successful first step. -/
theorem utf8Decode_step_some (l : List Nat) (c : Nat) (rest : List Nat)
    (h : utf8DecodeStep l = some (c, rest)) :
    utf8Decode l = (utf8Decode rest).map (c :: ·) := by
  rcases l with _ | ⟨b, bs⟩
  · simp [utf8DecodeStep] at h
  · unfold utf8Decode
    simp only [List.length_cons, utf8DecodeAux, h]
    have hlen := utf8DecodeStep_shrinks _ _ _ h
    simp only [List.length_cons] at hlen
    rw [utf8DecodeAux_fuel bs.length rest.length rest (by omega) (by omega)]

/-- Unfolding the decoder through a failing first step. -/
theorem utf8Decode_step_none (l : List Nat) (hne : l ≠ [])
    (h : utf8DecodeStep l = none) : utf8Decode l = none := by
  rcases l with _ | ⟨b, bs⟩
  · simp at hne
  · unfold utf8Decode
    simp only [List.length_cons, utf8DecodeAux, h]

/-- A decode step on the encoding of a scalar value recovers the
value and the remaining bytes. -/
theorem utf8DecodeStep_encodeChar (c : Nat) (rest : List Nat) (h : IsScalar c) :
    utf8DecodeStep (utf8EncodeChar c ++ rest) = some (c, rest) := by
  have hlt : c < 0x110000 := by rcases h with h | h; omega; omega
  by_cases h1 : c < 0x80
  · have e : utf8EncodeChar c = [c] := by unfold utf8EncodeChar; rw [if_pos h1]
    rw [e, List.cons_append, List.nil_append]
    simp only [utf8DecodeStep, if_pos h1]
  · by_cases h2 : c < 0x800
    · have e : utf8EncodeChar c = [0xC0 + c / 64, 0x80 + c % 64] := by
        unfold utf8EncodeChar; rw [if_neg h1, if_pos h2]
      rw [e, List.cons_append, List.cons_append, List.nil_append]
      simp only [utf8DecodeStep]
      rw [if_neg (by omega), if_neg (by omega), if_pos (by omega),
        if_pos ⟨by omega, by omega⟩]
      have hv : (0xC0 + c / 64 - 0xC0) * 64 + (0x80 + c % 64 - 0x80) = c := by
        omega
      rw [hv]
    · by_cases h3 : c < 0x10000
      · have e : utf8EncodeChar c =
            [0xE0 + c / 4096, 0x80 + c / 64 % 64, 0x80 + c % 64] := by
          unfold utf8EncodeChar; rw [if_neg h1, if_neg h2, if_pos h3]
        have hsur : c < 0xD800 ∨ 0xE000 ≤ c := by
          rcases h with h | h
          · exact .inl h
          · exact .inr h.1
        rw [e, List.cons_append, List.cons_append, List.cons_append,
          List.nil_append]
        simp only [utf8DecodeStep]
        rw [if_neg (by omega), if_neg (by omega), if_neg (by omega),
          if_pos (by omega), if_pos ⟨by split_ifs <;> omega, by omega, by omega⟩]
        have hv : (0xE0 + c / 4096 - 0xE0) * 4096 +
            (0x80 + c / 64 % 64 - 0x80) * 64 + (0x80 + c % 64 - 0x80) = c := by
          omega
        rw [hv]
      · have e : utf8EncodeChar c =
            [0xF0 + c / 0x40000, 0x80 + c / 4096 % 64,
             0x80 + c / 64 % 64, 0x80 + c % 64] := by
          unfold utf8EncodeChar; rw [if_neg h1, if_neg h2, if_neg h3]
        rw [e, List.cons_append, List.cons_append, List.cons_append,
          List.cons_append, List.nil_append]
        simp only [utf8DecodeStep]
        rw [if_neg (by omega), if_neg (by omega), if_neg (by omega),
          if_neg (by omega), if_pos (by omega),
          if_pos ⟨by split_ifs <;> omega, ⟨by omega, by omega⟩,
            by omega, by omega⟩]
        have hv : (0xF0 + c / 0x40000 - 0xF0) * 0x40000 +
            (0x80 + c / 4096 % 64 - 0x80) * 4096 +
            (0x80 + c / 64 % 64 - 0x80) * 64 + (0x80 + c % 64 - 0x80) = c := by
          omega
        rw [hv]

/-- Decoding inverts encoding on strings of scalar values. -/
theorem utf8Decode_encode (p : RStr) (h : ∀ c ∈ p, IsScalar c) :
    utf8Decode (utf8Encode p) = some p := by
  induction p with
  | nil => rfl
  | cons c cs ih =>
    rw [utf8Encode,
      utf8Decode_step_some _ c (utf8Encode cs)
        (utf8DecodeStep_encodeChar c _ (h c (by simp))),
      ih (fun x hx => h x (by simp [hx]))]
    rfl

/-! ## Lemmas about the native-store state -/

/-- Looking up a freshly inserted key returns the inserted value. -/
theorem storeLookup_insert (s : Store) (k : StoreKey) (v : List Nat) :
    storeLookup (storeInsert s k v) k = some v := by
  simp [storeInsert, storeLookup]

/-- Looking up an erased key finds nothing. -/
theorem storeLookup_erase (s : Store) (k : StoreKey) :
    storeLookup (storeErase s k) k = none := by
  induction s with
  | nil => rfl
  | cons e rest ih =>
    by_cases hek : e.1 = k
    · simpa [storeErase, hek] using ih
    · simpa [storeErase, storeLookup, hek] using ih

/-! ## Shared helper lemmas for the claims -/

/-- A successful backend get on any credential returns that credential
unchanged (the macOS backend performs no metadata enrichment). -/
theorem get_password_ok_credential (cred : PlatformCredential) (store : Store)
    (s : RStr) (res : PlatformCredential)
    (h : get_password cred store = .ok (s, res)) : res = cred := by
  cases cred with
  | Lin c => simp [get_password] at h
  | Win c => simp [get_password] at h
  | Mac m =>
    simp only [get_password, get_keychain, default_for_domain] at h
    rcases hf : find_generic_password store m.domain m.service m.account with err | bytes
    · simp only [hf] at h; simp at h
    · simp only [hf] at h
      rcases hd : decode_password bytes with e2 | s2
      · simp only [hd] at h; simp at h
      · simp only [hd, Except.ok.injEq, Prod.mk.injEq] at h
        exact h.2.symm

/-! ## The claims -/

/-- C7: for every service string and username string,
`Entry::new(service, username)` constructs an `Entry` whose target
equals `default_target(current_platform(), None, service, username)`. -/
theorem entry_new_target (service username : RStr) :
    (Entry.new service username).target =
      default_target platform none service username := rfl

/-- C8: for every target string `t`, service string and username
string, `Entry::new_with_target(t, service, username)` constructs an
`Entry` whose target equals
`default_target(current_platform(), Some(t), service, username)`. -/
theorem entry_new_with_target_target (t service username : RStr) :
    (Entry.new_with_target t service username).target =
      default_target platform (some t) service username := rfl

/-- C2: `Entry::new_with_credential(c)` returns `Ok(entry)` with
`entry.target = c` exactly when `c.matches_platform(current_platform())`
holds, and `Err(WrongCredentialPlatform)` otherwise. -/
theorem new_with_credential_iff_matches (cred : PlatformCredential) :
    (cred.matches_platform platform = true →
      Entry.new_with_credential cred = .ok { target := cred }) ∧
    (cred.matches_platform platform = false →
      Entry.new_with_credential cred = .error .WrongCredentialPlatform) := by
  constructor <;> intro hm <;> simp [Entry.new_with_credential, hm]

/-- Witness for C2 at a Mac credential (accepted, target returned
unchanged) and at a Windows credential (rejected). -/
theorem new_with_credential_iff_matches_witness :
    ((PlatformCredential.Mac ⟨.User, [], []⟩).matches_platform platform = true ∧
      Entry.new_with_credential (.Mac ⟨.User, [], []⟩) =
        .ok { target := .Mac ⟨.User, [], []⟩ }) ∧
    ((PlatformCredential.Win ⟨[]⟩).matches_platform platform = false ∧
      Entry.new_with_credential (.Win ⟨[]⟩) =
        .error .WrongCredentialPlatform) :=
  ⟨⟨by rfl, (new_with_credential_iff_matches (.Mac ⟨.User, [], []⟩)).1 (by rfl)⟩,
   ⟨by rfl, (new_with_credential_iff_matches (.Win ⟨[]⟩)).2 (by rfl)⟩⟩

/-- C4: decoding any byte sequence that is not valid UTF-8 fails with
`BadEncoding` carrying exactly the input bytes (in particular on
`0x80`, `0xBF` and `0xED 0xA0 0xA0`); on valid input the decoded
string is returned as is, so no replacement characters are ever
substituted, and the function is total. -/
theorem decode_password_bad_encoding :
    (∀ bytes, utf8Decode bytes = none →
      decode_password bytes = .error (.BadEncoding bytes)) ∧
    (∀ bytes s, utf8Decode bytes = some s → decode_password bytes = .ok s) ∧
    decode_password [0x80] = .error (.BadEncoding [0x80]) ∧
    decode_password [0xBF] = .error (.BadEncoding [0xBF]) ∧
    decode_password [0xED, 0xA0, 0xA0] =
      .error (.BadEncoding [0xED, 0xA0, 0xA0]) := by
  refine ⟨?_, ?_, by rfl, by rfl, by rfl⟩
  · intro bytes h; unfold decode_password; rw [h]
  · intro bytes s h; unfold decode_password; rw [h]

/-- Witness for C4 at the single byte `0x80`. -/
theorem decode_password_bad_encoding_witness :
    utf8Decode [0x80] = none ∧
    decode_password [0x80] = .error (.BadEncoding [0x80]) :=
  ⟨by rfl, decode_password_bad_encoding.1 [0x80] (by rfl)⟩

/-- C5: the native-error mapping of the macOS backend is total: the
five explicitly mapped codes go to their kinds, and every other code
maps to `PlatformFailure` carrying the original native error. -/
theorem decode_error_total_mapping :
    decode_error (-25291) = .NoStorageAccess (-25291) ∧
    decode_error (-25292) = .NoStorageAccess (-25292) ∧
    decode_error (-25294) = .NoStorageAccess (-25294) ∧
    decode_error (-25295) = .NoStorageAccess (-25295) ∧
    decode_error (-25300) = .NoEntry ∧
    ∀ code : NativeError,
      code ∉ ([-25291, -25292, -25294, -25295, -25300] : List NativeError) →
      decode_error code = .PlatformFailure code := by
  refine ⟨by rfl, by rfl, by rfl, by rfl, by rfl, ?_⟩
  intro code h
  simp only [List.mem_cons, List.not_mem_nil, or_false, not_or] at h
  obtain ⟨h1, h2, h3, h4, h5⟩ := h
  unfold decode_error
  rw [if_neg h1, if_neg h2, if_neg h3, if_neg h4, if_neg h5]

/-- Witness for C5 at the unmapped code 7. -/
theorem decode_error_total_mapping_witness :
    (7 : NativeError) ∉ ([-25291, -25292, -25294, -25295, -25300] :
      List NativeError) ∧
    decode_error 7 = .PlatformFailure 7 :=
  ⟨by decide, decode_error_total_mapping.2.2.2.2.2 7 (by decide)⟩

/-- C3: every backend operation on a credential whose variant tag does
not match the current platform fails synchronously with
`WrongCredentialPlatform`, leaving the native store untouched. -/
theorem wrong_platform_synchronous_failure (cred : PlatformCredential)
    (p : RStr) (store : Store)
    (hm : cred.matches_platform platform = false) :
    set_password cred p store = (.error .WrongCredentialPlatform, store) ∧
    get_password cred store = .error .WrongCredentialPlatform ∧
    delete_password cred store = (.error .WrongCredentialPlatform, store) := by
  cases cred with
  | Mac m => exact absurd hm (by simp [PlatformCredential.matches_platform,
      platform, macos_platform])
  | Lin c => exact ⟨rfl, rfl, rfl⟩
  | Win c => exact ⟨rfl, rfl, rfl⟩

/-- Witness for C3 at a Linux credential and the empty store. -/
theorem wrong_platform_synchronous_failure_witness :
    (PlatformCredential.Lin ⟨[], [], []⟩).matches_platform platform = false ∧
    (set_password (.Lin ⟨[], [], []⟩) [65] [] =
        (.error .WrongCredentialPlatform, []) ∧
      get_password (.Lin ⟨[], [], []⟩) [] = .error .WrongCredentialPlatform ∧
      delete_password (.Lin ⟨[], [], []⟩) [] =
        (.error .WrongCredentialPlatform, [])) :=
  ⟨by rfl, wrong_platform_synchronous_failure (.Lin ⟨[], [], []⟩) [65] []
    (by rfl)⟩

/-- C6: deleting at a Mac address with no stored secret fails with
`NoEntry` (the native not-found code -25300 is normalized), not
`PlatformFailure`, and the store is unchanged. -/
theorem delete_nonexistent_noentry (m : MacCredential) (store : Store)
    (h : storeLookup store (m.domain, m.service, m.account) = none) :
    delete_password (.Mac m) store = (.error .NoEntry, store) ∧
    decode_error errSecItemNotFound = .NoEntry := by
  refine ⟨?_, by rfl⟩
  simp [delete_password, get_keychain, default_for_domain,
    find_generic_password, h, decode_error, errSecItemNotFound]

/-- Witness for C6 at a concrete credential over the empty store. -/
theorem delete_nonexistent_noentry_witness :
    storeLookup [] (MacKeychainDomain.User, [], []) = none ∧
    (delete_password (.Mac ⟨.User, [], []⟩) [] = (.error .NoEntry, []) ∧
      decode_error errSecItemNotFound = .NoEntry) :=
  ⟨by rfl, delete_nonexistent_noentry ⟨.User, [], []⟩ [] (by rfl)⟩

/-- C1: on a platform-matching address, set followed by get returns
the password unchanged, and delete followed by get fails with
`NoEntry`, over the explicit native-store state. -/
theorem set_get_delete_roundtrip (cred : PlatformCredential) (p : RStr)
    (store : Store) (hm : cred.matches_platform platform = true)
    (hp : ∀ c ∈ p, IsScalar c) :
    (set_password cred p store).1 = .ok () ∧
    get_password cred (set_password cred p store).2 = .ok (p, cred) ∧
    (delete_password cred (set_password cred p store).2).1 = .ok () ∧
    get_password cred (delete_password cred (set_password cred p store).2).2 =
      .error .NoEntry := by
  cases cred with
  | Lin c => exact absurd hm (by simp [PlatformCredential.matches_platform,
      platform, macos_platform])
  | Win c => exact absurd hm (by simp [PlatformCredential.matches_platform,
      platform, macos_platform])
  | Mac m =>
    have hdec : decode_password (utf8Encode p) = .ok p := by
      unfold decode_password; rw [utf8Decode_encode p hp]
    have hset : set_password (.Mac m) p store =
        (.ok (), storeInsert store (m.domain, m.service, m.account)
          (utf8Encode p)) := by
      simp [set_password, get_keychain, default_for_domain,
        set_generic_password]
    have hget : get_password (.Mac m)
        (storeInsert store (m.domain, m.service, m.account) (utf8Encode p)) =
        .ok (p, .Mac m) := by
      simp [get_password, get_keychain, default_for_domain,
        find_generic_password, storeLookup_insert, hdec]
    have hdel : delete_password (.Mac m)
        (storeInsert store (m.domain, m.service, m.account) (utf8Encode p)) =
        (.ok (), storeErase
          (storeInsert store (m.domain, m.service, m.account) (utf8Encode p))
          (m.domain, m.service, m.account)) := by
      simp [delete_password, get_keychain, default_for_domain,
        find_generic_password, storeLookup_insert]
    have hget2 : get_password (.Mac m)
        (storeErase
          (storeInsert store (m.domain, m.service, m.account) (utf8Encode p))
          (m.domain, m.service, m.account)) = .error .NoEntry := by
      simp [get_password, get_keychain, default_for_domain,
        find_generic_password, storeLookup_erase, decode_error,
        errSecItemNotFound]
    rw [hset]
    exact ⟨rfl, hget, by rw [hdel], by rw [hdel]; exact hget2⟩

/-- Witness for C1 at a concrete Mac credential, the one-character
password "A" and the empty store. -/
theorem set_get_delete_roundtrip_witness :
    ((PlatformCredential.Mac ⟨.User, [], []⟩).matches_platform platform = true ∧
      ∀ c ∈ ([65] : RStr), IsScalar c) ∧
    ((set_password (.Mac ⟨.User, [], []⟩) [65] []).1 = .ok () ∧
      get_password (.Mac ⟨.User, [], []⟩)
        (set_password (.Mac ⟨.User, [], []⟩) [65] []).2 =
        .ok ([65], .Mac ⟨.User, [], []⟩) ∧
      (delete_password (.Mac ⟨.User, [], []⟩)
        (set_password (.Mac ⟨.User, [], []⟩) [65] []).2).1 = .ok () ∧
      get_password (.Mac ⟨.User, [], []⟩)
        (delete_password (.Mac ⟨.User, [], []⟩)
          (set_password (.Mac ⟨.User, [], []⟩) [65] []).2).2 =
        .error .NoEntry) :=
  ⟨⟨by rfl, by decide⟩,
    set_get_delete_roundtrip (.Mac ⟨.User, [], []⟩) [65] [] (by rfl)
      (by decide)⟩

/-- C9: no `Entry` operation modifies the entry's stored target; in
particular `get_password` discards the (possibly enriched) credential
returned by the backend, keeping only the secret. -/
theorem entry_ops_preserve_target (e : Entry) (p : RStr) (store : Store) :
    (e.set_password p store).2.1 = e.target ∧
    (e.get_password store).2 = e.target ∧
    (e.get_password_and_credential store).2 = e.target ∧
    (e.delete_password store).2.1 = e.target ∧
    (e.get_password store).1 =
      (Keyring.get_password e.target store).map (·.1) := by
  refine ⟨rfl, ?_, ?_, rfl, ?_⟩
  · cases hg : Keyring.get_password e.target store with
    | ok v => cases v; simp [Entry.get_password, hg]
    | error err => simp [Entry.get_password, hg]
  · cases hg : Keyring.get_password e.target store with
    | ok v => cases v; simp [Entry.get_password_and_credential, hg]
    | error err => simp [Entry.get_password_and_credential, hg]
  · cases hg : Keyring.get_password e.target store with
    | ok v => cases v; simp [Entry.get_password, hg, Except.map]
    | error err => simp [Entry.get_password, hg, Except.map]

/-- C10: the macOS backend never mutates the credential it receives,
so a successful `get_password_and_credential` returns a credential
equal to the entry's original target. -/
theorem macos_get_preserves_credential :
    (∀ (cred : PlatformCredential) (store : Store) (s : RStr)
        (res : PlatformCredential),
      get_password cred store = .ok (s, res) → res = cred) ∧
    (∀ (e : Entry) (store : Store) (s : RStr) (res : PlatformCredential),
      (e.get_password_and_credential store).1 = .ok (s, res) →
      res = e.target) := by
  refine ⟨fun cred store s res h => get_password_ok_credential cred store s res h,
    fun e store s res h => ?_⟩
  rcases hg : Keyring.get_password e.target store with err | ⟨pw, map⟩
  · simp [Entry.get_password_and_credential, hg] at h
  · simp only [Entry.get_password_and_credential, hg, Except.ok.injEq,
      Prod.mk.injEq] at h
    rw [← h.2]
    exact get_password_ok_credential e.target store pw map hg

/-- Witness for C10 at a concrete one-entry store. -/
theorem macos_get_preserves_credential_witness :
    get_password (.Mac ⟨.User, [], []⟩)
      [((MacKeychainDomain.User, [], []), [65])] =
      .ok ([65], .Mac ⟨.User, [], []⟩) ∧
    (PlatformCredential.Mac ⟨.User, [], []⟩) = .Mac ⟨.User, [], []⟩ :=
  ⟨by rfl, macos_get_preserves_credential.1 (.Mac ⟨.User, [], []⟩)
    [((MacKeychainDomain.User, [], []), [65])] [65]
    (.Mac ⟨.User, [], []⟩) (by rfl)⟩

end Keyring
